import Mathlib

/-! Verification of the Doomcord session / rate-limiting core.

The Python source (src/doom/session.py, src/doom/engine.py, config/settings.py)
is shallowly embedded: wall-clock readings (`time.time()`) become explicit
rational-number arguments, object mutation becomes explicit state passing, and
the external DOOM engine / renderer collaborators (the `python_doom` game
object, PIL resizing, Discord) are abstracted behind a record of
state-transition functions, exactly at the call boundary the session code
uses.  Calls into a session's engine and the manager's session-lifecycle steps
are additionally recorded as explicit event traces so that ordering claims
("stop before publish", "idle eviction before the update pass") are stateable.
-/

attribute [local semireducible] Rat.sub Rat.add Rat.mul Rat.inv

namespace Doomcord

/-- Python `int(q)` on an exact rational: truncation toward zero, computed on
the normalized numerator and denominator (`int(current_time / 60)` in
`RateLimiter.can_update`). -/
def pyInt (q : ℚ) : Int :=
  q.num.tdiv q.den

/-! Constants from config/settings.py (default values, no environment overrides) -/

def MESSAGE_RATE_LIMIT : ℚ := 1

def REACTION_RATE_LIMIT : ℚ := 1/4

def DISPLAY_WIDTH : Nat := 60

def DISPLAY_HEIGHT : Nat := 40

def UPDATE_RATE : ℚ := 1

def MAX_SESSIONS : Nat := 10

def MAX_UPDATES_PER_MINUTE : Nat := 60

/-! RateLimiter (src/doom/session.py lines 16-42)

State: `last_update` (seconds, Python float modelled as ℚ), `update_count`,
`last_minute` (the `int(time/60)` bucket marker).  `can_update` takes the
`time.time()` reading as the argument `current_time` and returns the verdict
TOGETHER with the successor state, because the Python method mutates
`update_count` and `last_minute` in its bucket-rollover branch before
returning.  `record_update` takes its own `time.time()` reading as `now`. -/

structure RateLimiter where
  last_update : ℚ
  update_count : Nat
  last_minute : Int
deriving DecidableEq

def RateLimiter.mkNew : RateLimiter := ⟨0, 0, 0⟩

def RateLimiter.can_update (rl : RateLimiter) (current_time : ℚ) : Bool × RateLimiter :=
  let current_minute : Int := pyInt (current_time / 60)
  let rl' : RateLimiter :=
    if current_minute > rl.last_minute then
      { rl with update_count := 0, last_minute := current_minute }
    else rl
  if rl'.update_count ≥ MAX_UPDATES_PER_MINUTE then (false, rl')
  else if current_time - rl'.last_update < MESSAGE_RATE_LIMIT then (false, rl')
  else (true, rl')

def RateLimiter.record_update (rl : RateLimiter) (now : ℚ) : RateLimiter :=
  { rl with last_update := now, update_count := rl.update_count + 1 }

/-- The second component of `can_update` is the bucket-rollover successor
state, independent of which verdict branch is taken. -/
theorem can_update_snd (rl : RateLimiter) (t : ℚ) :
    (rl.can_update t).2 =
      if pyInt (t / 60) > rl.last_minute then
        { rl with update_count := 0, last_minute := pyInt (t / 60) }
      else rl := by
  unfold RateLimiter.can_update
  dsimp only
  split_ifs <;> rfl

/-- C4: the claim says `canUpdate` is pure and `recordUpdate` is the only
mutator.  In the code, `can_update` itself performs the bucket rollover:
on the state ⟨last_update 0, count 5, minute 0⟩ at time 60 it returns a
DIFFERENT state, with the count reset to 0 and the bucket marker advanced
to 1.  This closed instance refutes the purity claim. -/
theorem C4_can_update_not_pure :
    (RateLimiter.can_update ⟨0, 5, 0⟩ 60).2 ≠ (⟨0, 5, 0⟩ : RateLimiter)
    ∧ (RateLimiter.can_update ⟨0, 5, 0⟩ 60).2 = (⟨0, 0, 1⟩ : RateLimiter) := by
  decide

/-- C4 (amended): `can_update` never writes `last_update`, but it does
perform the bucket rollover (resetting `update_count` and advancing
`last_minute`) whenever the current time falls in a later bucket; otherwise
it leaves the state unchanged.  `record_update` stamps `last_update`,
increments `update_count`, and never touches the bucket marker.  So the
mutators are exactly: `record_update` for `last_update`/`update_count`, and
`can_update`'s rollover branch for `update_count`/`last_minute`. -/
theorem C4_mutation_discipline (rl : RateLimiter) (now : ℚ) :
    (rl.can_update now).2.last_update = rl.last_update
    ∧ ((rl.can_update now).2 =
        if pyInt (now / 60) > rl.last_minute then
          { rl with update_count := 0, last_minute := pyInt (now / 60) }
        else rl)
    ∧ (rl.record_update now).last_minute = rl.last_minute
    ∧ (rl.record_update now).last_update = now
    ∧ (rl.record_update now).update_count = rl.update_count + 1 := by
  refine ⟨?_, can_update_snd rl now, rfl, rfl, rfl⟩
  rw [can_update_snd rl now]
  split_ifs <;> rfl

/-- C5: the claim says `recordUpdate(now)` first rolls the bucket over
(resetting the count to zero and advancing the marker) when `now` is in a
later bucket.  On the state ⟨0, 5, 0⟩ at time 120 — two buckets later —
`record_update` yields count 6 and marker 0: no reset, no advance; the
claimed result ⟨120, 1, 2⟩ is not what the code produces. -/
theorem C5_record_update_no_rollover :
    pyInt ((120 : ℚ) / 60) > (0 : Int)
    ∧ RateLimiter.record_update ⟨0, 5, 0⟩ 120 = (⟨120, 6, 0⟩ : RateLimiter)
    ∧ RateLimiter.record_update ⟨0, 5, 0⟩ 120 ≠ (⟨120, 1, 2⟩ : RateLimiter) := by
  decide

/-- C5 (amended): `record_update(now)` unconditionally stamps
`last_update = now` and increments the bucket count, and performs NO bucket
rollover whatsoever — the rollover (reset of the count, advance of the
marker) is done by `can_update` instead. -/
theorem C5_record_update_stamps_and_counts (rl : RateLimiter) (now : ℚ) :
    rl.record_update now = ⟨now, rl.update_count + 1, rl.last_minute⟩ :=
  rfl

/-- C7: if `record_update` ran at `now1` and `can_update` is evaluated at a
later `now2` with `now2 - now1` below the minimum interval
(`MESSAGE_RATE_LIMIT`), the verdict is false: either the per-minute ceiling
already blocks, or the minimum-interval test `now2 - last_update < 1` fires,
since the rollover never touches `last_update = now1`. -/
theorem C7_min_interval_denies (rl : RateLimiter) (now1 now2 : ℚ)
    (hlt : now1 < now2) (hgap : now2 - now1 < MESSAGE_RATE_LIMIT) :
    ((rl.record_update now1).can_update now2).1 = false := by
  unfold RateLimiter.can_update RateLimiter.record_update
  dsimp only
  split_ifs <;> simp_all

/-- C7 witness: the concrete instance `now1 = 5`, `now2 = 11/2` on a fresh
limiter. -/
theorem C7_witness :
    ((RateLimiter.mkNew.record_update 5).can_update (11/2)).1 = false :=
  C7_min_interval_denies RateLimiter.mkNew 5 (11/2) (by decide) (by decide)

/-! Machinery for C6: the per-bucket ceiling invariant

A call sequence obeying the documented discipline — each `record_update`
immediately preceded by a `can_update` that returned true, both at the same
wall-clock reading — is modelled by folding `rlStep` over the list of
reading times.  `runSeq` also returns the list of times at which an update
was actually recorded. -/

def rlStep (rl : RateLimiter) (t : ℚ) : RateLimiter × Bool :=
  let r := rl.can_update t
  if r.1 then (r.2.record_update t, true) else (r.2, false)

def runSeq : RateLimiter → List ℚ → RateLimiter × List ℚ
  | rl, [] => (rl, [])
  | rl, t :: ts =>
      let s := rlStep rl t
      let rest := runSeq s.1 ts
      (rest.1, if s.2 then t :: rest.2 else rest.2)

/-- Number of recorded update times falling in bucket `b`. -/
def countIn (b : Int) (l : List ℚ) : Nat :=
  l.countP (fun t => pyInt (t / 60) == b)

/-- How many more updates the limiter state can still admit into bucket `b`
before the ceiling: full allowance for a future bucket, the remaining
allowance for the currently tracked bucket, nothing for a past bucket. -/
def slack (rl : RateLimiter) (b : Int) : Nat :=
  if rl.last_minute = b then MAX_UPDATES_PER_MINUTE - rl.update_count
  else if rl.last_minute < b then MAX_UPDATES_PER_MINUTE
  else 0

/-- Reformulation of `rlStep` as one nested case split, aligning the rollover and the
two verdict tests. -/
def stepSpec (rl : RateLimiter) (t : ℚ) : RateLimiter × Bool :=
  let current_minute : Int := pyInt (t / 60)
  let rl' : RateLimiter :=
    if current_minute > rl.last_minute then
      { rl with update_count := 0, last_minute := current_minute }
    else rl
  if rl'.update_count ≥ MAX_UPDATES_PER_MINUTE then (rl', false)
  else if t - rl'.last_update < MESSAGE_RATE_LIMIT then (rl', false)
  else (⟨t, rl'.update_count + 1, rl'.last_minute⟩, true)

theorem rlStep_eq_stepSpec (rl : RateLimiter) (t : ℚ) :
    rlStep rl t = stepSpec rl t := by
  unfold rlStep stepSpec RateLimiter.can_update RateLimiter.record_update
  dsimp only
  split_ifs <;> first | rfl | simp_all

theorem pyInt_eq_floor {q : ℚ} (h : 0 ≤ q) : pyInt q = ⌊q⌋ := by
  unfold pyInt
  rw [Int.tdiv_eq_ediv (Rat.num_nonneg.mpr h) (Int.natCast_nonneg _)]
  exact Rat.floor_def.symm

theorem pyIntDiv60_nonneg {t : ℚ} (h : 0 ≤ t) : 0 ≤ pyInt (t / 60) := by
  rw [pyInt_eq_floor (by positivity)]
  exact Int.floor_nonneg.mpr (by positivity)

theorem pyIntDiv60_mono {t u : ℚ} (ht : 0 ≤ t) (htu : t ≤ u) :
    pyInt (t / 60) ≤ pyInt (u / 60) := by
  have hu : 0 ≤ u := ht.trans htu
  rw [pyInt_eq_floor (by positivity), pyInt_eq_floor (by positivity)]
  exact Int.floor_le_floor (by gcongr)

/-- Main induction: starting from any limiter state whose tracked bucket
lower-bounds every remaining reading, the updates recorded into any bucket
`b` never exceed that state's remaining allowance for `b`. -/
theorem runSeq_count_le (ts : List ℚ) : ∀ (rl : RateLimiter) (b : Int),
    ts.Pairwise (· ≤ ·) → (∀ t ∈ ts, 0 ≤ t) →
    (∀ t ∈ ts, rl.last_minute ≤ pyInt (t / 60)) →
    rl.update_count ≤ MAX_UPDATES_PER_MINUTE →
    countIn b (runSeq rl ts).2 ≤ slack rl b := by
  induction ts with
  | nil =>
      intro rl b _ _ _ _
      simp [runSeq, countIn]
  | cons t ts ih =>
      intro rl b hp hnn hlb hcount
      obtain ⟨hle, hp'⟩ := List.pairwise_cons.mp hp
      have hnt : 0 ≤ t := hnn t (List.mem_cons_self t ts)
      have hnn' : ∀ u ∈ ts, 0 ≤ u := fun u hu => hnn u (List.mem_cons_of_mem t hu)
      have hlbt : rl.last_minute ≤ pyInt (t / 60) := hlb t (List.mem_cons_self t ts)
      have hmono : ∀ u ∈ ts, pyInt (t / 60) ≤ pyInt (u / 60) :=
        fun u hu => pyIntDiv60_mono hnt (hle u hu)
      simp only [runSeq, rlStep_eq_stepSpec]
      unfold stepSpec
      dsimp only
      by_cases hroll : pyInt (t / 60) > rl.last_minute
      · rw [if_pos hroll]
        have hc0 : ¬ ((⟨rl.last_update, 0, pyInt (t / 60)⟩ : RateLimiter).update_count
            ≥ MAX_UPDATES_PER_MINUTE) := by dsimp only; decide
        rw [if_neg hc0]
        by_cases hgap :
            t - (⟨rl.last_update, 0, pyInt (t / 60)⟩ : RateLimiter).last_update
              < MESSAGE_RATE_LIMIT
        · rw [if_pos hgap]
          dsimp only
          have h2 := ih ⟨rl.last_update, 0, pyInt (t / 60)⟩ b hp' hnn' hmono
            (by dsimp only; decide)
          refine le_trans h2 ?_
          unfold slack
          dsimp only
          split_ifs <;> omega
        · rw [if_neg hgap]
          show countIn b (t :: (runSeq ⟨t, 1, pyInt (t / 60)⟩ ts).2) ≤ slack rl b
          have h2 := ih ⟨t, 1, pyInt (t / 60)⟩ b hp' hnn' hmono (by dsimp only; decide)
          simp only [countIn, List.countP_cons, beq_iff_eq] at h2 ⊢
          unfold slack at h2 ⊢
          dsimp only at h2 ⊢
          split_ifs at h2 ⊢ <;> omega
      · rw [if_neg hroll]
        have hlb' : ∀ u ∈ ts, rl.last_minute ≤ pyInt (u / 60) :=
          fun u hu => le_trans hlbt (hmono u hu)
        by_cases hcap : rl.update_count ≥ MAX_UPDATES_PER_MINUTE
        · rw [if_pos hcap]
          dsimp only
          exact ih rl b hp' hnn' hlb' hcount
        · rw [if_neg hcap]
          by_cases hgap : t - rl.last_update < MESSAGE_RATE_LIMIT
          · rw [if_pos hgap]
            dsimp only
            exact ih rl b hp' hnn' hlb' hcount
          · rw [if_neg hgap]
            show countIn b (t :: (runSeq ⟨t, rl.update_count + 1, rl.last_minute⟩ ts).2)
              ≤ slack rl b
            have hmin : rl.last_minute = pyInt (t / 60) := le_antisymm hlbt (not_lt.mp hroll)
            have h2 := ih ⟨t, rl.update_count + 1, rl.last_minute⟩ b hp' hnn'
              (by dsimp only; exact hlb') (by dsimp only; omega)
            simp only [countIn, List.countP_cons, beq_iff_eq] at h2 ⊢
            unfold slack at h2 ⊢
            dsimp only at h2 ⊢
            split_ifs at h2 ⊢ <;> omega

/-- Wall-clock readings: `n` of them starting at `start`, spaced 1 second apart. -/
def rampFrom : Nat → ℚ → List ℚ
  | 0, _ => []
  | n + 1, start => start :: rampFrom n (start + 1)

/-- C6: under the documented call discipline (each `record_update` immediately
preceded by a `can_update` returning true at the same reading, readings
nondecreasing and nonnegative as wall-clock time is), the number of updates
recorded inside any single 60-second bucket never exceeds
`MAX_UPDATES_PER_MINUTE`.  In particular (the spec scenario): sixty
1-second-spaced permitted pairs at times 60..119 — all inside bucket 1 — are
all recorded, and a 61st `can_update` at time 119.5, still before the bucket
rolls, returns false. -/
theorem C6_bucket_ceiling :
    (∀ ts : List ℚ, ts.Pairwise (· ≤ ·) → (∀ t ∈ ts, 0 ≤ t) →
      ∀ b : Int, countIn b (runSeq RateLimiter.mkNew ts).2 ≤ MAX_UPDATES_PER_MINUTE)
    ∧ (runSeq RateLimiter.mkNew (rampFrom 60 60)).2.length = 60
    ∧ (∀ t ∈ (runSeq RateLimiter.mkNew (rampFrom 60 60)).2, pyInt (t / 60) = 1)
    ∧ pyInt ((239 / 2 : ℚ) / 60) = (runSeq RateLimiter.mkNew (rampFrom 60 60)).1.last_minute
    ∧ ((runSeq RateLimiter.mkNew (rampFrom 60 60)).1.can_update (239 / 2)).1 = false := by
  refine ⟨?_, by decide, by decide, by decide, by decide⟩
  intro ts hp hnn b
  have h := runSeq_count_le ts RateLimiter.mkNew b hp hnn
    (fun t ht => pyIntDiv60_nonneg (hnn t ht)) (by decide)
  refine le_trans h ?_
  show slack ⟨0, 0, 0⟩ b ≤ MAX_UPDATES_PER_MINUTE
  unfold slack
  dsimp only
  split_ifs <;> omega

/-- C6 witness: a concrete two-reading run through the main invariant. -/
theorem C6_witness :
    countIn 1 (runSeq RateLimiter.mkNew [61, 62]).2 ≤ MAX_UPDATES_PER_MINUTE :=
  C6_bucket_ceiling.1 [61, 62] (by decide) (by decide) 1

/-! GameState (src/doom/engine.py lines 15-30)

A plain dataclass.  `to_dict` is `dataclasses.asdict`, which for this class
produces a flat record of the same seven fields (ints, and the position
triple, which `asdict` keeps as a tuple); `from_dict` is `cls(**data)`.
The dictionary is modelled as a record with the same shape.  Python floats
in the position triple are modelled as ℚ. -/

structure GameState where
  health : Int
  armor : Int
  ammo : Int
  weapon : Int
  position : ℚ × ℚ × ℚ
  level : Int
  score : Int
deriving DecidableEq

/-- Field defaults from the dataclass declaration. -/
def GameState.default : GameState :=
  ⟨100, 0, 50, 2, (0, 0, 0), 1, 0⟩

/-- The value produced by `dataclasses.asdict(GameState(...))`. -/
structure GameStateDict where
  health : Int
  armor : Int
  ammo : Int
  weapon : Int
  position : ℚ × ℚ × ℚ
  level : Int
  score : Int
deriving DecidableEq

def GameState.to_dict (s : GameState) : GameStateDict :=
  ⟨s.health, s.armor, s.ammo, s.weapon, s.position, s.level, s.score⟩

def GameState.from_dict (d : GameStateDict) : GameState :=
  ⟨d.health, d.armor, d.ammo, d.weapon, d.position, d.level, d.score⟩

/-- C9: converting a GameState to its serializable snapshot form and
restoring from that snapshot yields the same GameState — every field
(health, armor, ammo, weapon, position triple, level, score) survives the
round trip. -/
theorem C9_game_state_roundtrip (s : GameState) :
    GameState.from_dict (GameState.to_dict s) = s :=
  rfl

/-! GameSession (src/doom/session.py lines 44-116)

The DOOM engine object (`DoomEngine`, wrapping the external `python_doom`
game) and the pixel renderer (`FrameBuffer.frame_to_ascii`, which goes
through PIL) are external collaborators per the spec; they are abstracted
as a state type `E`, a frame type `F`, and a record of transition functions
mirroring the methods the session code invokes.  Each session operation
additionally returns the list of engine calls it issued, so that
"the engine is not touched" and call-ordering facts are stateable.  The two
`time.time()` reads inside `update` (one in `can_update`, one in
`record_update`) are the explicit arguments `now_check` and `now_record`. -/

inductive EngineCall where
  | init
  | advance (delta_time : ℚ)
  | input (action : String)
  | frame
  | save
  | load
  | close
deriving DecidableEq

structure EngineOps (E F : Type) where
  init : E → E
  update : ℚ → E → E
  handle_input : String → E → E
  get_frame : E → E × F
  save_state : E → E × GameStateDict
  load_state : GameStateDict → E → E

/-- FrameBuffer construction state (width/height); the session constructor
builds it with the literal defaults 60 × 40 from frame_buffer.py. -/
structure FrameBuffer where
  width : Nat
  height : Nat
deriving DecidableEq

structure GameSession (E : Type) where
  user_id : Int
  engine : E
  frame_buffer : FrameBuffer
  message_id : Option Int
  channel_id : Option Int
  last_update : ℚ
  active : Bool
  rate_limiter : RateLimiter
  last_input_time : ℚ
deriving DecidableEq

/-- Constructor `GameSession.__init__`; the engine object freshly constructed by the
caller-supplied initial engine state `e0`. -/
def GameSession.mkNew {E : Type} (user_id : Int) (e0 : E) : GameSession E :=
  ⟨user_id, e0, ⟨60, 40⟩, none, none, 0, false, RateLimiter.mkNew, 0⟩

variable {E F : Type}

def GameSession.start (ops : EngineOps E F) (s : GameSession E) :
    GameSession E × List EngineCall :=
  ({ s with engine := ops.init s.engine, active := true }, [EngineCall.init])

def GameSession.stop (s : GameSession E) : GameSession E × List EngineCall :=
  ({ s with active := false }, [])

def GameSession.handle_input (ops : EngineOps E F) (action : String) (now : ℚ)
    (s : GameSession E) : GameSession E × List EngineCall :=
  if s.active = false then (s, [])
  else if now - s.last_input_time < REACTION_RATE_LIMIT then (s, [])
  else ({ s with last_input_time := now, engine := ops.handle_input action s.engine },
        [EngineCall.input action])

def GameSession.update (ops : EngineOps E F) (delta_time now_check now_record : ℚ)
    (s : GameSession E) : GameSession E × List EngineCall :=
  if s.active = false then (s, [])
  else
    let r := s.rate_limiter.can_update now_check
    if r.1 = false then ({ s with rate_limiter := r.2 }, [])
    else ({ s with engine := (ops.update delta_time s.engine),
                   rate_limiter := (r.2.record_update now_record) },
          [EngineCall.advance delta_time])

def GameSession.get_frame (ops : EngineOps E F) (render : F → String)
    (statusBar : String → GameStateDict → String) (s : GameSession E) :
    GameSession E × String × List EngineCall :=
  if s.active = false then (s, "", [])
  else
    let rf := ops.get_frame s.engine
    let ascii_frame := render rf.2
    let rs := ops.save_state rf.1
    ({ s with engine := rs.1 }, statusBar ascii_frame rs.2,
     [EngineCall.frame, EngineCall.save])

def GameSession.save_state (ops : EngineOps E F) (s : GameSession E) :
    (GameSession E × GameStateDict) × List EngineCall :=
  let r := ops.save_state s.engine
  (({ s with engine := r.1 }, r.2), [EngineCall.save])

def GameSession.load_state (ops : EngineOps E F) (st : GameStateDict)
    (s : GameSession E) : GameSession E × List EngineCall :=
  ({ s with engine := ops.load_state st s.engine }, [EngineCall.load])

/-- A concrete started session over the trivial engine state `7 : Int`,
used for closed counterexamples. -/
def sampleActive : GameSession Int :=
  { user_id := 1, engine := 7, frame_buffer := ⟨60, 40⟩, message_id := none,
    channel_id := none, last_update := 0, active := true,
    rate_limiter := RateLimiter.mkNew, last_input_time := 0 }

/-- C8: the claim says `stop()` releases the session's engine handle.  It
does not: on a concrete active session, `stop` merely clears the `active`
flag — the session still holds the identical engine handle and issues NO
engine call at all (in particular no close/teardown; the call-trace
vocabulary includes `EngineCall.close`, and it is never emitted). -/
theorem C8_stop_keeps_engine_handle :
    GameSession.stop sampleActive
      = ({ sampleActive with active := false }, ([] : List EngineCall))
    ∧ (GameSession.stop sampleActive).1.engine = sampleActive.engine :=
  ⟨rfl, rfl⟩

/-- C8 (amended): `stop()` transitions the session to the inactive state but
does NOT release the engine handle (the engine field is untouched and no
engine call is issued; the code leaves cleanup to object finalization).
The rest of the claim holds: every subsequent operation on the stopped
session is a no-op returning an empty/default result and touching neither
the session state nor the engine — `update` and `handle_input` return the
state unchanged with no engine calls, and `get_frame` returns the empty
string. -/
theorem C8_stop_noop_semantics (ops : EngineOps E F)
    (render : F → String) (statusBar : String → GameStateDict → String)
    (s : GameSession E) (delta_time now_check now_record now : ℚ) (action : String) :
    (GameSession.stop s).1 = { s with active := false }
    ∧ (GameSession.stop s).1.engine = s.engine
    ∧ (GameSession.stop s).2 = []
    ∧ (GameSession.stop s).1.update ops delta_time now_check now_record
        = ((GameSession.stop s).1, [])
    ∧ (GameSession.stop s).1.handle_input ops action now = ((GameSession.stop s).1, [])
    ∧ (GameSession.stop s).1.get_frame ops render statusBar
        = ((GameSession.stop s).1, "", []) :=
  ⟨rfl, rfl, rfl, rfl, rfl, rfl⟩

/-- C10 (implicit): the session's OWN `last_update` field is written only at
construction (to 0) and is never touched again: `update`, `handle_input`
and `get_frame` all leave it unchanged (as do `start` and `stop`).  Only
the rate limiter's separate `last_update` is ever stamped.  Hence the idle
sweep's staleness test `now - session.last_update > 300` always compares
against the construction-time value 0, not the time of the session's most
recent successful update. -/
theorem C10_session_last_update_constant (ops : EngineOps E F)
    (render : F → String) (statusBar : String → GameStateDict → String)
    (user_id : Int) (e0 : E) (s : GameSession E)
    (delta_time now_check now_record now : ℚ) (action : String) :
    (GameSession.mkNew user_id e0).last_update = 0
    ∧ (s.update ops delta_time now_check now_record).1.last_update = s.last_update
    ∧ (s.handle_input ops action now).1.last_update = s.last_update
    ∧ (s.get_frame ops render statusBar).1.last_update = s.last_update
    ∧ (s.start ops).1.last_update = s.last_update
    ∧ s.stop.1.last_update = s.last_update := by
  refine ⟨rfl, ?_, ?_, ?_, rfl, rfl⟩
  · unfold GameSession.update
    dsimp only
    split_ifs <;> rfl
  · unfold GameSession.handle_input
    split_ifs <;> rfl
  · unfold GameSession.get_frame
    dsimp only
    split_ifs <;> rfl

/-! SessionManager (src/doom/session.py lines 118-160)

`self.sessions` is a Python dict keyed by user id: modelled as an
association list with insertion order, where assignment to an existing key
replaces in place and assignment to a fresh key appends, and `del` removes
the key.  Manager operations return an event trace recording, in program
order: `session.stop()` calls, `session.start()` calls, registry
publication (`self.sessions[user_id] = session`), `session.update()` calls
issued by the sweep, registry removals (`del`), and the pacing sleep. -/

inductive MEvent where
  | stopCall (user_id : Int)
  | startCall (user_id : Int)
  | publish (user_id : Int)
  | updateCall (user_id : Int)
  | removeEntry (user_id : Int)
  | sleep
deriving DecidableEq

def dictLookup {α : Type} (k : Int) : List (Int × α) → Option α
  | [] => none
  | p :: rest => if p.1 = k then some p.2 else dictLookup k rest

def dictInsert {α : Type} (k : Int) (v : α) : List (Int × α) → List (Int × α)
  | [] => [(k, v)]
  | p :: rest => if p.1 = k then (k, v) :: rest else p :: dictInsert k v rest

def dictErase {α : Type} (k : Int) (l : List (Int × α)) : List (Int × α) :=
  l.filter (fun p => p.1 != k)

def keys {α : Type} (l : List (Int × α)) : List Int :=
  l.map Prod.fst

structure SessionManager (E : Type) where
  sessions : List (Int × GameSession E)
  last_cleanup : ℚ
deriving DecidableEq

def SessionManager.mkNew (E : Type) : SessionManager E := ⟨[], 0⟩

/-- Method `create_session`: stop the old session in place if the user has one,
construct and start a fresh session, then publish it into the registry. -/
def SessionManager.create_session (ops : EngineOps E F) (e0 : E) (user_id : Int)
    (m : SessionManager E) : SessionManager E × GameSession E × List MEvent :=
  let stopped :=
    match dictLookup user_id m.sessions with
    | some s =>
        ({ m with sessions := dictInsert user_id (GameSession.stop s).1 m.sessions },
         [MEvent.stopCall user_id])
    | none => (m, [])
  let session := ((GameSession.mkNew user_id e0).start ops).1
  ({ stopped.1 with sessions := dictInsert user_id session stopped.1.sessions },
   session,
   stopped.2 ++ [MEvent.startCall user_id, MEvent.publish user_id])

def SessionManager.get_session (user_id : Int) (m : SessionManager E) :
    Option (GameSession E) :=
  dictLookup user_id m.sessions

/-- Method `end_session`: if present, stop the session (in place) and delete the
registry entry; a no-op on a missing key. -/
def SessionManager.end_session (user_id : Int) (m : SessionManager E) :
    SessionManager E × List MEvent :=
  match dictLookup user_id m.sessions with
  | some s =>
      ({ m with sessions :=
          dictErase user_id (dictInsert user_id (GameSession.stop s).1 m.sessions) },
       [MEvent.stopCall user_id, MEvent.removeEntry user_id])
  | none => (m, [])

/-- The idle sweep's eviction loop: `end_session` on each pre-computed
inactive user, in order. -/
def sweepList : SessionManager E → List Int → SessionManager E × List MEvent
  | m, [] => (m, [])
  | m, user_id :: rest =>
      let r := m.end_session user_id
      let r2 := sweepList r.1 rest
      (r2.1, r.2 ++ r2.2)

/-- The update pass: `session.update(delta_time)` on every registry value in
order, each followed by the pacing sleep.  Both `time.time()` reads inside
each update are modelled at the tick reading `now`. -/
def updatePass (ops : EngineOps E F) (delta_time now : ℚ) :
    List (Int × GameSession E) → List (Int × GameSession E) × List MEvent
  | [] => ([], [])
  | p :: rest =>
      let s' := (p.2.update ops delta_time now now).1
      let r := updatePass ops delta_time now rest
      ((p.1, s') :: r.1, MEvent.updateCall p.1 :: MEvent.sleep :: r.2)

def SessionManager.update_all (ops : EngineOps E F) (delta_time now : ℚ)
    (m : SessionManager E) : SessionManager E × List MEvent :=
  let sw :=
    if 60 ≤ now - m.last_cleanup then
      let m' : SessionManager E := { m with last_cleanup := now }
      let inactive_users :=
        keys (m'.sessions.filter (fun p => decide (300 < now - p.2.last_update)))
      sweepList m' inactive_users
    else (m, [])
  let up := updatePass ops delta_time now sw.1.sessions
  ({ sw.1 with sessions := up.1 }, sw.2 ++ up.2)

/-- Trivial concrete engine operations over `E := Int`, `F := Unit`, for
closed counterexamples and witnesses. -/
def trivOps : EngineOps Int Unit :=
  ⟨fun e => e, fun _ e => e, fun _ e => e, fun e => (e, ()),
   fun e => (e, GameState.default.to_dict), fun _ e => e⟩

/-! Association-list (dict) lemmas -/

theorem dictLookup_mem {α : Type} {k : Int} {v : α} :
    ∀ {l : List (Int × α)}, dictLookup k l = some v → (k, v) ∈ l := by
  intro l
  induction l with
  | nil => intro h; simp [dictLookup] at h
  | cons p rest ih =>
      obtain ⟨a, b⟩ := p
      intro h
      by_cases hk : a = k
      · subst hk
        simp only [dictLookup, if_pos, Option.some.injEq] at h
        subst h
        exact List.mem_cons_self _ _
      · simp only [dictLookup, if_neg hk] at h
        exact List.mem_cons_of_mem _ (ih h)

theorem mem_keys_of_lookup {α : Type} {k : Int} {v : α} {l : List (Int × α)}
    (h : dictLookup k l = some v) : k ∈ keys l :=
  List.mem_map_of_mem Prod.fst (dictLookup_mem h)

theorem lookup_none_of_not_mem_keys {α : Type} {k : Int} :
    ∀ {l : List (Int × α)}, k ∉ keys l → dictLookup k l = none := by
  intro l
  induction l with
  | nil => intro _; rfl
  | cons p rest ih =>
      obtain ⟨a, b⟩ := p
      intro h
      simp only [keys, List.map_cons, List.mem_cons, not_or] at h
      simp only [dictLookup, if_neg (fun hh : a = k => h.1 hh.symm)]
      exact ih (fun hm => h.2 (by simpa [keys] using hm))

theorem keys_dictInsert_of_mem {α : Type} {k : Int} (v : α) :
    ∀ {l : List (Int × α)}, k ∈ keys l → keys (dictInsert k v l) = keys l := by
  intro l
  induction l with
  | nil => intro h; simp [keys] at h
  | cons p rest ih =>
      obtain ⟨a, b⟩ := p
      intro h
      by_cases hk : a = k
      · subst hk
        simp [dictInsert, keys]
      · simp only [keys, List.map_cons, List.mem_cons] at h
        rcases h with h | h
        · exact absurd h.symm hk
        · have h2 := ih (show k ∈ keys rest by simpa [keys] using h)
          simp only [keys, List.map_cons] at h2 ⊢
          simp [dictInsert, if_neg hk, h2]

theorem dictLookup_dictInsert_self {α : Type} (k : Int) (v : α) :
    ∀ (l : List (Int × α)), dictLookup k (dictInsert k v l) = some v := by
  intro l
  induction l with
  | nil => simp [dictInsert, dictLookup]
  | cons p rest ih =>
      obtain ⟨a, b⟩ := p
      by_cases hk : a = k
      · simp [dictInsert, if_pos hk, dictLookup]
      · simp [dictInsert, if_neg hk, dictLookup, hk, ih]

theorem countKey_dictInsert {α : Type} (k : Int) (v : α) :
    ∀ {l : List (Int × α)}, (keys l).Nodup →
      (dictInsert k v l).countP (fun p => p.1 == k) = 1 := by
  intro l
  induction l with
  | nil => intro _; simp [dictInsert]
  | cons p rest ih =>
      obtain ⟨a, b⟩ := p
      intro hnd
      simp only [keys, List.map_cons, List.nodup_cons] at hnd
      by_cases hk : a = k
      · subst hk
        have hz : List.countP (fun p => p.1 == a) rest = 0 := by
          rw [List.countP_eq_zero]
          intro p hp hpk
          exact hnd.1 (by
            have hpa : p.1 = a := by simpa using hpk
            simpa [keys, hpa] using List.mem_map_of_mem Prod.fst hp)
        simp [dictInsert, List.countP_cons, hz]
      · simp only [dictInsert, if_neg hk, List.countP_cons]
        rw [ih hnd.2]
        simp [hk]

/-! Sweep and update-pass lemmas -/

theorem lookup_eq_none_iff {α : Type} {k : Int} :
    ∀ {l : List (Int × α)}, dictLookup k l = none ↔ k ∉ keys l := by
  intro l
  induction l with
  | nil => simp [dictLookup, keys]
  | cons q rest ih =>
      by_cases hq : q.1 = k
      · subst hq
        simp [dictLookup, keys]
      · simp only [dictLookup, if_neg hq, ih, keys, List.map_cons, List.mem_cons, not_or]
        constructor
        · intro h
          exact ⟨fun he => hq he.symm, h⟩
        · intro h
          exact h.2

theorem updateCall_mem_updatePass {u : Int} (ops : EngineOps E F) (d n : ℚ) :
    ∀ (l : List (Int × GameSession E)),
      MEvent.updateCall u ∈ (updatePass ops d n l).2 → u ∈ keys l := by
  intro l
  induction l with
  | nil => intro h; simp [updatePass] at h
  | cons p rest ih =>
      intro h
      simp only [updatePass, List.mem_cons] at h
      rcases h with h | h | h
      · have hu : u = p.1 := by simpa using h
        simp [keys, hu]
      · simp at h
      · have h2 := ih h
        simp only [keys, List.map_cons, List.mem_cons] at h2 ⊢
        exact Or.inr h2

theorem keys_filter_subset {α : Type} {u : Int} {f : Int × α → Bool}
    {l : List (Int × α)} (h : u ∈ keys (l.filter f)) : u ∈ keys l := by
  simp only [keys, List.mem_map] at h ⊢
  obtain ⟨p, hp, rfl⟩ := h
  exact ⟨p, List.mem_of_mem_filter hp, rfl⟩

theorem not_mem_keys_dictErase_self {α : Type} (u : Int) (l : List (Int × α)) :
    u ∉ keys (dictErase u l) := by
  simp only [dictErase, keys, List.mem_map]
  rintro ⟨p, hp, rfl⟩
  have hf := List.of_mem_filter hp
  simp at hf

theorem keys_end_session_subset {u' : Int} (u : Int) (m : SessionManager E)
    (h : u' ∈ keys (m.end_session u).1.sessions) : u' ∈ keys m.sessions := by
  unfold SessionManager.end_session at h
  cases hl : dictLookup u m.sessions with
  | none => rw [hl] at h; exact h
  | some s =>
      rw [hl] at h
      dsimp only at h
      have h1 := keys_filter_subset h
      rwa [keys_dictInsert_of_mem _ (mem_keys_of_lookup hl)] at h1

theorem not_mem_keys_end_session_self (u : Int) (m : SessionManager E) :
    u ∉ keys (m.end_session u).1.sessions := by
  unfold SessionManager.end_session
  cases hl : dictLookup u m.sessions with
  | none =>
      dsimp only
      exact lookup_eq_none_iff.mp hl
  | some s =>
      dsimp only
      exact not_mem_keys_dictErase_self u _

theorem sweepList_keys_subset {u' : Int} :
    ∀ (us : List Int) (m : SessionManager E),
      u' ∈ keys (sweepList m us).1.sessions → u' ∈ keys m.sessions := by
  intro us
  induction us with
  | nil => intro m h; exact h
  | cons u0 rest ih =>
      intro m h
      simp only [sweepList] at h
      exact keys_end_session_subset u0 m (ih (m.end_session u0).1 h)

theorem sweepList_removes {u : Int} :
    ∀ (us : List Int) (m : SessionManager E), u ∈ us →
      u ∉ keys (sweepList m us).1.sessions := by
  intro us
  induction us with
  | nil => intro m h; simp at h
  | cons u0 rest ih =>
      intro m h
      simp only [sweepList]
      rcases List.mem_cons.mp h with h | h
      · subst h
        intro hmem
        exact not_mem_keys_end_session_self u m (sweepList_keys_subset rest _ hmem)
      · exact ih _ h

theorem updateCall_not_mem_end_session {u u' : Int} (m : SessionManager E) :
    MEvent.updateCall u ∉ (m.end_session u').2 := by
  unfold SessionManager.end_session
  cases dictLookup u' m.sessions <;> simp

theorem updateCall_not_mem_sweepList {u : Int} :
    ∀ (us : List Int) (m : SessionManager E),
      MEvent.updateCall u ∉ (sweepList m us).2 := by
  intro us
  induction us with
  | nil => intro m; simp [sweepList]
  | cons u0 rest ih =>
      intro m
      simp only [sweepList, List.mem_append]
      rintro (h | h)
      · exact updateCall_not_mem_end_session m h
      · exact ih _ h

/-- C2 (amended): the blanket claim fails because the idle sweep is
throttled to once per 60-second interval (see the counterexample); on any
tick where the sweep DOES run (`now - last_cleanup ≥ 60`), every session
already idle for more than 300 seconds at the start of the tick is evicted
by the sweep before the update pass begins, so `session.update` is never
invoked on it within that tick. -/
theorem C2_sweep_precedes_updates (ops : EngineOps E F) (delta_time now : ℚ)
    (m : SessionManager E) (user_id : Int) (s : GameSession E)
    (hsweep : 60 ≤ now - m.last_cleanup)
    (hlook : dictLookup user_id m.sessions = some s)
    (hidle : 300 < now - s.last_update) :
    MEvent.updateCall user_id ∉ (m.update_all ops delta_time now).2 := by
  unfold SessionManager.update_all
  dsimp only
  rw [if_pos hsweep]
  intro hmem
  rcases List.mem_append.mp hmem with h | h
  · exact updateCall_not_mem_sweepList _ _ h
  · have hk := updateCall_mem_updatePass ops delta_time now _ h
    have hin : user_id ∈ keys
        (m.sessions.filter (fun p => decide (300 < now - p.2.last_update))) := by
      have hpmem : (user_id, s) ∈ m.sessions := dictLookup_mem hlook
      have hfil : (user_id, s) ∈
          m.sessions.filter (fun p => decide (300 < now - p.2.last_update)) :=
        List.mem_filter.mpr ⟨hpmem, by simpa using hidle⟩
      exact List.mem_map_of_mem Prod.fst hfil
    exact sweepList_removes _ _ hin hk

/-- C2 witness: a concrete manager whose sweep is due (`now - last_cleanup =
400 ≥ 60`) holding one session idle for 400 seconds; the tick emits no
`update` call for it. -/
theorem C2_witness :
    MEvent.updateCall 1 ∉
      ((⟨[(1, sampleActive)], 0⟩ : SessionManager Int).update_all trivOps 1 400).2 :=
  C2_sweep_precedes_updates trivOps 1 400 ⟨[(1, sampleActive)], 0⟩ 1 sampleActive
    (by decide) (by decide) (by decide)

/-- C2 counterexample: the claim as stated quantifies over EVERY tick.  On a
tick at time 310 with `last_cleanup = 300`, the sweep is skipped
(310 - 300 < 60) even though the single registered session has been idle
for 310 > 300 seconds — and the update pass then DOES invoke `update` on
that idle session within the same tick. -/
theorem C2_idle_updated_same_tick :
    (300 : ℚ) < 310 - sampleActive.last_update
    ∧ ¬ (60 ≤ (310 : ℚ) - (⟨[(1, sampleActive)], 300⟩ : SessionManager Int).last_cleanup)
    ∧ MEvent.updateCall 1 ∈
        ((⟨[(1, sampleActive)], 300⟩ : SessionManager Int).update_all trivOps 1 310).2 := by
  decide

/-- C3: after `create_session` for a user, the registry holds exactly one
entry for that user, bound to the returned session; that session was
started (`active = true`) before being published; and the event trace shows
the old session's `stop()` (when one existed) and the new session's
`start()` both strictly precede the registry publication.  The hypothesis
is the dict invariant: registry keys are unique. -/
theorem C3_create_session_single_active (ops : EngineOps E F) (e0 : E)
    (user_id : Int) (m : SessionManager E) (hnd : (keys m.sessions).Nodup) :
    dictLookup user_id (m.create_session ops e0 user_id).1.sessions
      = some (m.create_session ops e0 user_id).2.1
    ∧ (m.create_session ops e0 user_id).1.sessions.countP (fun p => p.1 == user_id) = 1
    ∧ (m.create_session ops e0 user_id).2.1.active = true
    ∧ (match dictLookup user_id m.sessions with
       | some _ => (m.create_session ops e0 user_id).2.2
           = [MEvent.stopCall user_id, MEvent.startCall user_id, MEvent.publish user_id]
       | none => (m.create_session ops e0 user_id).2.2
           = [MEvent.startCall user_id, MEvent.publish user_id]) := by
  unfold SessionManager.create_session
  cases hl : dictLookup user_id m.sessions with
  | none =>
      dsimp only
      exact ⟨dictLookup_dictInsert_self _ _ _, countKey_dictInsert _ _ hnd, rfl, rfl⟩
  | some s =>
      dsimp only
      refine ⟨dictLookup_dictInsert_self _ _ _, ?_, rfl, rfl⟩
      exact countKey_dictInsert _ _
        (by rw [keys_dictInsert_of_mem _ (mem_keys_of_lookup hl)]; exact hnd)

/-- C3 witness: re-creating the session of user 1 on a concrete one-entry
registry. -/
theorem C3_witness :
    dictLookup 1 ((⟨[(1, sampleActive)], 0⟩ : SessionManager Int).create_session
        trivOps 0 1).1.sessions
      = some ((⟨[(1, sampleActive)], 0⟩ : SessionManager Int).create_session
        trivOps 0 1).2.1
    ∧ ((⟨[(1, sampleActive)], 0⟩ : SessionManager Int).create_session
        trivOps 0 1).2.2
      = [MEvent.stopCall 1, MEvent.startCall 1, MEvent.publish 1] := by
  have h := C3_create_session_single_active trivOps 0 1 ⟨[(1, sampleActive)], 0⟩ (by decide)
  exact ⟨h.1, by simpa using h.2.2.2⟩

/-- The registry at the configured capacity: MAX_SESSIONS = 10 sessions for
users 1..10. -/
def manager10 : SessionManager Int :=
  ⟨[(1, sampleActive), (2, sampleActive), (3, sampleActive), (4, sampleActive),
    (5, sampleActive), (6, sampleActive), (7, sampleActive), (8, sampleActive),
    (9, sampleActive), (10, sampleActive)], 0⟩

/-- C1: `create_session` contains NO capacity check: on a registry already
holding `MAX_SESSIONS = 10` sessions, creating a session for a fresh user
11 succeeds and grows the registry to 11 entries — there is no capacity
error and the registry does not stay unchanged.  (`MAX_SESSIONS` and the
user-facing `SESSION_LIMIT_MESSAGE` exist in config/settings.py but are
never used by the session code, so the claim reflects the configured intent
while the code omits the check.) -/
theorem C1_capacity_not_enforced :
    manager10.sessions.length = MAX_SESSIONS
    ∧ dictLookup 11 manager10.sessions = none
    ∧ (manager10.create_session trivOps 0 11).1.sessions.length = MAX_SESSIONS + 1
    ∧ dictLookup 11 (manager10.create_session trivOps 0 11).1.sessions
        = some (manager10.create_session trivOps 0 11).2.1 := by
  decide

end Doomcord
